import Mathlib

/-!
Shallow embedding of the attendance application (src/app.py) for
verification of its specification claims.

The application keeps five SQLAlchemy tables; the claims concern the
attendance ledger (AttendanceRecord rows and the check-in / check-out
POST handlers of employee_dashboard), the rating computation
(calculate_rating), the notification inbox query, and the
EmployeeRequest submission / resolution handlers.  Each table is
embedded as a Lean structure and the database as a list of rows; each
route handler becomes a pure function from the relevant table state and
form inputs to the new state plus the response (a flash message, a 404,
or an unhandled exception marker where the code has no handler).
-/

namespace AttendanceApp

/-- A flash(message, category) call in the Flask code. -/
structure Flash where
  message : String
  category : String
deriving DecidableEq, Repr

/-- AttendanceRecord model (src/app.py lines 48-56).  Dates are embedded
as natural-number day keys; check_in / check_out are nullable HH:MM:SS
strings, embedded as Option String (the application never writes an
empty string into them, so Python truthiness of the column coincides
with Option.isSome). -/
structure AttendanceRecord where
  employee_id : Nat
  date : Nat
  status : String
  check_in : Option String
  check_out : Option String
deriving DecidableEq, Repr

/-- The filter_by(employee_id=..., date=...) key test. -/
def recordKeyMatches (r : AttendanceRecord) (e d : Nat) : Bool :=
  r.employee_id == e && r.date == d

/-- AttendanceRecord.query.filter_by(employee_id=emp.id, date=today).first()
(src/app.py line 300). -/
def findRecord (db : List AttendanceRecord) (e d : Nat) : Option AttendanceRecord :=
  db.find? (fun r => recordKeyMatches r e d)

/-- The action == "check_in" branch of employee_dashboard (src/app.py
lines 302-309): if no record exists for (employee, today) a new row with
status "Present" and check_in = current time is added; otherwise nothing
is written and a warning is flashed. -/
def check_in (db : List AttendanceRecord) (e d : Nat) (now : String) :
    List AttendanceRecord × Flash :=
  match findRecord db e d with
  | none =>
      (db ++ [{ employee_id := e, date := d, status := "Present",
                check_in := some now, check_out := none }],
       { message := "Checked in successfully!", category := "success" })
  | some _ =>
      (db, { message := "Already checked in today!", category := "warning" })

/-- Mutation of the row object returned by .first(): the first row whose
key matches gets its check_out column set. -/
def setCheckOutFirst : List AttendanceRecord → Nat → Nat → String → List AttendanceRecord
  | [], _, _, _ => []
  | r :: rs, e, d, t =>
      if recordKeyMatches r e d then { r with check_out := some t } :: rs
      else r :: setCheckOutFirst rs e d t

/-- The action == "check_out" branch of employee_dashboard (src/app.py
lines 311-317): the check_out column is written only when a record
exists and its check_out is still null; both failure cases (no record,
or check_out already set) fall into the same else branch and flash the
same danger message. -/
def check_out (db : List AttendanceRecord) (e d : Nat) (now : String) :
    List AttendanceRecord × Flash :=
  match findRecord db e d with
  | some r =>
      if r.check_out = none then
        (setCheckOutFirst db e d now,
         { message := "Checked out successfully!", category := "success" })
      else
        (db, { message := "Cannot check out before checking in!", category := "danger" })
  | none =>
      (db, { message := "Cannot check out before checking in!", category := "danger" })

/-- The two ledger operations the web surface exposes, with the wall
clock supplied as data. -/
inductive LedgerAction where
  | checkIn (e d : Nat) (now : String)
  | checkOut (e d : Nat) (now : String)
deriving DecidableEq, Repr

def ledgerStep (db : List AttendanceRecord) : LedgerAction → List AttendanceRecord
  | .checkIn e d now => (check_in db e d now).1
  | .checkOut e d now => (check_out db e d now).1

/-- The ledger state after a sequence of operations from the empty table. -/
def runLedger (acts : List LedgerAction) : List AttendanceRecord :=
  acts.foldl ledgerStep []

/-- At most one row per (employee, date) key. -/
def atMostOnePerDay (db : List AttendanceRecord) : Prop :=
  ∀ e d, db.countP (fun r => recordKeyMatches r e d) ≤ 1

/-- The check_out column is set only on rows whose check_in is set. -/
def checkOutOnlyAfterCheckIn (db : List AttendanceRecord) : Prop :=
  ∀ r ∈ db, r.check_out.isSome → r.check_in.isSome

/-- Every row carries a check_in time (true of every reachable state:
rows are only ever created by the check-in handler, which writes one). -/
def checkInAlwaysSet (db : List AttendanceRecord) : Prop :=
  ∀ r ∈ db, r.check_in.isSome

lemma setCheckOutFirst_countP (db : List AttendanceRecord) (e d : Nat) (t : String)
    (e' d' : Nat) :
    (setCheckOutFirst db e d t).countP (fun r => recordKeyMatches r e' d')
      = db.countP (fun r => recordKeyMatches r e' d') := by
  induction db with
  | nil => rfl
  | cons r rs ih =>
      by_cases h : recordKeyMatches r e d
      · rw [setCheckOutFirst, if_pos h, List.countP_cons, List.countP_cons]
        have hkey : recordKeyMatches { r with check_out := some t } e' d'
            = recordKeyMatches r e' d' := rfl
        rw [hkey]
      · rw [setCheckOutFirst, if_neg h, List.countP_cons, List.countP_cons, ih]

lemma setCheckOutFirst_mem (db : List AttendanceRecord) (e d : Nat) (t : String) :
    ∀ x ∈ setCheckOutFirst db e d t,
      x ∈ db ∨ ∃ r ∈ db, x = { r with check_out := some t } := by
  induction db with
  | nil => intro x hx; simp [setCheckOutFirst] at hx
  | cons r rs ih =>
      intro x hx
      by_cases h : recordKeyMatches r e d
      · rw [setCheckOutFirst, if_pos h] at hx
        rcases List.mem_cons.mp hx with hx | hx
        · exact Or.inr ⟨r, List.mem_cons_self r rs, hx⟩
        · exact Or.inl (List.mem_cons_of_mem r hx)
      · rw [setCheckOutFirst, if_neg h] at hx
        rcases List.mem_cons.mp hx with hx | hx
        · exact Or.inl (hx ▸ List.mem_cons_self r rs)
        · rcases ih x hx with h1 | ⟨r0, hr0, hx0⟩
          · exact Or.inl (List.mem_cons_of_mem r h1)
          · exact Or.inr ⟨r0, List.mem_cons_of_mem r hr0, hx0⟩

lemma check_in_preserves (db : List AttendanceRecord) (e d : Nat) (now : String)
    (h1 : atMostOnePerDay db) (h2 : checkInAlwaysSet db) :
    atMostOnePerDay (check_in db e d now).1 ∧ checkInAlwaysSet (check_in db e d now).1 := by
  unfold check_in
  cases hfind : findRecord db e d with
  | some r => exact ⟨h1, h2⟩
  | none =>
      simp only
      constructor
      · intro e' d'
        rw [List.countP_append]
        by_cases hk : recordKeyMatches
            { employee_id := e, date := d, status := "Present",
              check_in := some now, check_out := none } e' d'
        · have hee : e = e' ∧ d = d' := by
            simpa [recordKeyMatches] using hk
          have hzero : db.countP (fun r => recordKeyMatches r e' d') = 0 := by
            rw [List.countP_eq_zero]
            intro a ha hka
            have := List.find?_eq_none.mp hfind a ha
            apply this
            rcases hee with ⟨he, hd⟩
            subst he; subst hd
            exact hka
          simp [hzero, List.countP_cons, hk]
        · have : List.countP (fun r => recordKeyMatches r e' d')
              [({ employee_id := e, date := d, status := "Present",
                  check_in := some now, check_out := none } : AttendanceRecord)] = 0 := by
            simp [List.countP_cons, hk]
          rw [this]
          simpa using h1 e' d'
      · intro r hr
        rcases List.mem_append.mp hr with hr | hr
        · exact h2 r hr
        · simp only [List.mem_singleton] at hr
          subst hr
          rfl

lemma check_out_preserves (db : List AttendanceRecord) (e d : Nat) (now : String)
    (h1 : atMostOnePerDay db) (h2 : checkInAlwaysSet db) :
    atMostOnePerDay (check_out db e d now).1 ∧ checkInAlwaysSet (check_out db e d now).1 := by
  unfold check_out
  cases hfind : findRecord db e d with
  | none => exact ⟨h1, h2⟩
  | some r =>
      by_cases hco : r.check_out = none
      · simp only [hco, if_pos]
        constructor
        · intro e' d'
          rw [setCheckOutFirst_countP]
          exact h1 e' d'
        · intro x hx
          rcases setCheckOutFirst_mem db e d now x hx with hx | ⟨r0, hr0, hx0⟩

          · exact h2 x hx
          · subst hx0
            exact h2 r0 hr0
      · simp only [hco, if_neg]
        exact ⟨h1, h2⟩

lemma runLedger_inv (acts : List LedgerAction) :
    atMostOnePerDay (runLedger acts) ∧ checkInAlwaysSet (runLedger acts) := by
  suffices h : ∀ db, atMostOnePerDay db → checkInAlwaysSet db →
      atMostOnePerDay (acts.foldl ledgerStep db) ∧
      checkInAlwaysSet (acts.foldl ledgerStep db) by
    apply h
    · intro e d
      rw [List.countP_nil]
      exact Nat.zero_le 1
    · intro r hr
      simp at hr
  induction acts with
  | nil => intro db h1 h2; exact ⟨h1, h2⟩
  | cons a rest ih =>
      intro db h1 h2
      have hstep : atMostOnePerDay (ledgerStep db a) ∧ checkInAlwaysSet (ledgerStep db a) := by
        cases a with
        | checkIn e d now => exact check_in_preserves db e d now h1 h2
        | checkOut e d now => exact check_out_preserves db e d now h1 h2
      exact ih (ledgerStep db a) hstep.1 hstep.2

/-- Claim C1: after any sequence of ledger operations from the empty
table, at most one attendance record exists per (employee, date), and in
every record the check-out time is set only if the check-in time is
already set. -/
theorem ledger_invariant_any_sequence (acts : List LedgerAction) :
    atMostOnePerDay (runLedger acts) ∧ checkOutOnlyAfterCheckIn (runLedger acts) := by
  obtain ⟨h1, h2⟩ := runLedger_inv acts
  exact ⟨h1, fun r hr _ => h2 r hr⟩

/-- Claim C2: check-in is rejected (table unchanged, warning flash) when
a record already exists for (employee, day), and otherwise appends
exactly one record with status Present, check-in equal to the current
time and no check-out. -/
theorem check_in_spec (db : List AttendanceRecord) (e d : Nat) (now : String) :
    (findRecord db e d ≠ none →
        check_in db e d now
          = (db, { message := "Already checked in today!", category := "warning" })) ∧
    (findRecord db e d = none →
        check_in db e d now
          = (db ++ [{ employee_id := e, date := d, status := "Present",
                      check_in := some now, check_out := none }],
             { message := "Checked in successfully!", category := "success" })) := by
  constructor
  · intro h
    unfold check_in
    cases hfind : findRecord db e d with
    | none => exact absurd hfind h
    | some r => rfl
  · intro h
    unfold check_in
    rw [h]

lemma find?_append_of_none {α : Type} {p : α → Bool} (l₁ l₂ : List α)
    (h : l₁.find? p = none) : (l₁ ++ l₂).find? p = l₂.find? p := by
  induction l₁ with
  | nil => rfl
  | cons a rest ih =>
      by_cases ha : p a
      · rw [List.find?_cons_of_pos _ ha] at h
        exact absurd h (by simp)
      · rw [List.find?_cons_of_neg _ ha] at h
        rw [List.cons_append, List.find?_cons_of_neg _ ha]
        exact ih h

/-- Decomposition of the table around the row .first() returns, together
with the effect of writing its check_out column. -/
lemma findRecord_decomp (db : List AttendanceRecord) (e d : Nat) (now : String)
    (r : AttendanceRecord) (h : findRecord db e d = some r) :
    ∃ l₁ l₂, db = l₁ ++ r :: l₂ ∧
      (∀ x ∈ l₁, recordKeyMatches x e d = false) ∧
      setCheckOutFirst db e d now = l₁ ++ { r with check_out := some now } :: l₂ := by
  induction db with
  | nil => simp [findRecord] at h
  | cons a rs ih =>
      by_cases hk : recordKeyMatches a e d
      · have har : a = r := by
          unfold findRecord at h
          rw [List.find?_cons_of_pos (p := fun x => recordKeyMatches x e d) rs hk] at h
          exact Option.some.inj h
        subst har
        refine ⟨[], rs, by simp, by simp, ?_⟩
        rw [setCheckOutFirst, if_pos hk]
        simp
      · unfold findRecord at h
        rw [List.find?_cons_of_neg (p := fun x => recordKeyMatches x e d) rs hk] at h
        rcases ih h with ⟨l₁, l₂, hdb, hl₁, hset⟩
        refine ⟨a :: l₁, l₂, by rw [List.cons_append, ← hdb], ?_, ?_⟩
        · intro x hx
          rcases List.mem_cons.mp hx with hx | hx
          · subst hx
            exact Bool.eq_false_iff.mpr hk
          · exact hl₁ x hx
        · rw [setCheckOutFirst, if_neg hk, hset, List.cons_append]

lemma findRecord_key (db : List AttendanceRecord) (e d : Nat) (r : AttendanceRecord)
    (h : findRecord db e d = some r) : recordKeyMatches r e d = true :=
  List.find?_some (p := fun x => recordKeyMatches x e d) h

lemma findRecord_after_set (db : List AttendanceRecord) (e d : Nat) (now : String)
    (r : AttendanceRecord) (h : findRecord db e d = some r) :
    findRecord (setCheckOutFirst db e d now) e d = some { r with check_out := some now } := by
  rcases findRecord_decomp db e d now r h with ⟨l₁, l₂, hdb, hl₁, hset⟩
  rw [hset]
  unfold findRecord
  rw [find?_append_of_none _ _ (List.find?_eq_none.mpr (by
        intro x hx
        rw [hl₁ x hx]
        exact Bool.false_ne_true))]
  have hkey : recordKeyMatches { r with check_out := some now } e d = true := by
    have := findRecord_key db e d r h
    simpa [recordKeyMatches] using this
  rw [List.find?_cons_of_pos (p := fun x => recordKeyMatches x e d) l₂ hkey]

/-- Reduction of check_out when a record is found. -/
lemma check_out_eq_of_some (db : List AttendanceRecord) (e d : Nat) (now : String)
    (r : AttendanceRecord) (h : findRecord db e d = some r) :
    check_out db e d now
      = if r.check_out = none then
          (setCheckOutFirst db e d now,
           { message := "Checked out successfully!", category := "success" })
        else
          (db, { message := "Cannot check out before checking in!", category := "danger" }) := by
  unfold check_out
  rw [h]

/-- Reduction of check_out when no record is found. -/
lemma check_out_eq_of_none (db : List AttendanceRecord) (e d : Nat) (now : String)
    (h : findRecord db e d = none) :
    check_out db e d now
      = (db, { message := "Cannot check out before checking in!", category := "danger" }) := by
  unfold check_out
  rw [h]

/-- Claim C3 counterexample: when the day's record already carries a
check-out time, the code rejects the second check-out with the very same
flash it gives when no record exists at all; no distinct
AlreadyCheckedOut error is ever produced. -/
theorem check_out_error_not_distinct :
    check_out [{ employee_id := 1, date := 5, status := "Present",
                 check_in := some "09:00:00", check_out := some "17:00:00" }] 1 5 "18:00:00"
      = ([{ employee_id := 1, date := 5, status := "Present",
            check_in := some "09:00:00", check_out := some "17:00:00" }],
         { message := "Cannot check out before checking in!", category := "danger" }) ∧
    check_out [] 1 5 "18:00:00"
      = ([], { message := "Cannot check out before checking in!", category := "danger" }) :=
  ⟨rfl, rfl⟩

/-- Claim C3 (amended): check-out leaves the table unchanged and flashes
the single danger message (the same one in both cases) when no record
exists for the day or when the record's check-out is already set; when a
record exists with no check-out, it succeeds, sets check-out to the
current time, and a second check-out the same day is then rejected — so
check-out succeeds exactly once per day after a check-in. -/
theorem check_out_spec (db : List AttendanceRecord) (e d : Nat) (now : String) :
    (findRecord db e d = none →
        check_out db e d now
          = (db, { message := "Cannot check out before checking in!", category := "danger" })) ∧
    (∀ r, findRecord db e d = some r → r.check_out ≠ none →
        check_out db e d now
          = (db, { message := "Cannot check out before checking in!", category := "danger" })) ∧
    (∀ r, findRecord db e d = some r → r.check_out = none →
        (check_out db e d now).2
            = { message := "Checked out successfully!", category := "success" } ∧
        findRecord (check_out db e d now).1 e d = some { r with check_out := some now } ∧
        ∀ t2, check_out (check_out db e d now).1 e d t2
            = ((check_out db e d now).1,
               { message := "Cannot check out before checking in!", category := "danger" })) := by
  refine ⟨?_, ?_, ?_⟩
  · intro h
    exact check_out_eq_of_none db e d now h
  · intro r h hco
    rw [check_out_eq_of_some db e d now r h, if_neg hco]
  · intro r h hco
    have heq := check_out_eq_of_some db e d now r h
    rw [if_pos hco] at heq
    have hafter := findRecord_after_set db e d now r h
    have hfst : (check_out db e d now).1 = setCheckOutFirst db e d now := by rw [heq]
    refine ⟨by rw [heq], by rw [hfst]; exact hafter, ?_⟩
    intro t2
    rw [check_out_eq_of_some (check_out db e d now).1 e d t2
          { r with check_out := some now } (by rw [hfst]; exact hafter)]
    rw [if_neg (by simp)]

/-- Claim C10: a successful check-out rewrites only the check_out column
of the matched row — its employee, date, status and check-in columns are
kept, and every other row of the table (the rows before and after it)
is untouched; no row is created or deleted. -/
theorem check_out_frame (db : List AttendanceRecord) (e d : Nat) (now : String)
    (r : AttendanceRecord) (h : findRecord db e d = some r) (hco : r.check_out = none) :
    ∃ l₁ l₂, db = l₁ ++ r :: l₂ ∧
      (∀ x ∈ l₁, recordKeyMatches x e d = false) ∧
      check_out db e d now
        = (l₁ ++ { r with check_out := some now } :: l₂,
           { message := "Checked out successfully!", category := "success" }) := by
  rcases findRecord_decomp db e d now r h with ⟨l₁, l₂, hdb, hl₁, hset⟩
  refine ⟨l₁, l₂, hdb, hl₁, ?_⟩
  rw [check_out_eq_of_some db e d now r h, if_pos hco, hset]

/-- Witness for check_out_frame at a concrete two-row table. -/
theorem check_out_frame_witness :
    ∃ l₁ l₂,
      [{ employee_id := 1, date := 5, status := "Present",
         check_in := some "09:00:00", check_out := some "17:00:00" },
       { employee_id := 2, date := 5, status := "Present",
         check_in := some "08:30:00", check_out := none }]
        = l₁ ++ ({ employee_id := 2, date := 5, status := "Present",
                   check_in := some "08:30:00", check_out := none } : AttendanceRecord) :: l₂ ∧
      (∀ x ∈ l₁, recordKeyMatches x 2 5 = false) ∧
      check_out
        [{ employee_id := 1, date := 5, status := "Present",
           check_in := some "09:00:00", check_out := some "17:00:00" },
         { employee_id := 2, date := 5, status := "Present",
           check_in := some "08:30:00", check_out := none }] 2 5 "17:30:00"
        = (l₁ ++ ({ employee_id := 2, date := 5, status := "Present",
                    check_in := some "08:30:00", check_out := some "17:30:00" } :
                    AttendanceRecord) :: l₂,
           { message := "Checked out successfully!", category := "success" }) :=
  check_out_frame
    [{ employee_id := 1, date := 5, status := "Present",
       check_in := some "09:00:00", check_out := some "17:00:00" },
     { employee_id := 2, date := 5, status := "Present",
       check_in := some "08:30:00", check_out := none }] 2 5 "17:30:00"
    { employee_id := 2, date := 5, status := "Present",
      check_in := some "08:30:00", check_out := none } (by decide) (by decide)

/-- Round-half-even on a rational, matching the tie-breaking of the
Python built-in round. -/
def roundHalfEven (q : ℚ) : ℤ :=
  if q - ⌊q⌋ < 1/2 then ⌊q⌋
  else if 1/2 < q - ⌊q⌋ then ⌊q⌋ + 1
  else if ⌊q⌋ % 2 = 0 then ⌊q⌋ else ⌊q⌋ + 1

/-- Rounding to two decimal places, as round(x, 2) does on an exactly
representable value. -/
def roundTo2 (q : ℚ) : ℚ := (roundHalfEven (q * 100) : ℚ) / 100

/-- calculate_rating (src/app.py lines 477-483): over the employee's
attendance rows, 0 when there are none, otherwise
round((present_days / total_days) * 10, 2). -/
def calculate_rating (attendance : List AttendanceRecord) : ℚ :=
  let total_days := attendance.length
  let present_days := (attendance.filter (fun a => a.status == "Present")).length
  if total_days = 0 then 0
  else roundTo2 (((present_days : ℚ) / (total_days : ℚ)) * 10)

lemma roundHalfEven_intCast (n : ℤ) : roundHalfEven (n : ℚ) = n := by
  unfold roundHalfEven
  rw [Int.floor_intCast]
  rw [if_pos (by norm_num)]

lemma roundHalfEven_nonneg (q : ℚ) (h : 0 ≤ q) : 0 ≤ roundHalfEven q := by
  unfold roundHalfEven
  have hf : (0 : ℤ) ≤ ⌊q⌋ := Int.floor_nonneg.mpr h
  split_ifs <;> omega

lemma roundHalfEven_le (q : ℚ) (n : ℤ) (h : q ≤ n) : roundHalfEven q ≤ n := by
  unfold roundHalfEven
  have hf : ⌊q⌋ ≤ n := by
    have := Int.floor_le_floor h
    rwa [Int.floor_intCast] at this
  have hlt : ∀ hh : ¬(q - ⌊q⌋ < 1/2), ⌊q⌋ + 1 ≤ n := by
    intro hh
    push_neg at hh
    rcases lt_or_eq_of_le hf with hltn | heq
    · omega
    · exfalso
      have hq : q ≤ (⌊q⌋ : ℚ) := by
        rw [heq]
        exact_mod_cast h
      have : q - ⌊q⌋ ≤ 0 := by linarith
      linarith
  split_ifs with h1 h2 h3
  · exact hf
  · exact hlt (by linarith)
  · exact hf
  · exact hlt (by linarith)

lemma roundTo2_nonneg (q : ℚ) (h : 0 ≤ q) : 0 ≤ roundTo2 q := by
  unfold roundTo2
  have : (0 : ℤ) ≤ roundHalfEven (q * 100) :=
    roundHalfEven_nonneg _ (by positivity)
  have h0 : (0 : ℚ) ≤ (roundHalfEven (q * 100) : ℚ) := by exact_mod_cast this
  positivity

lemma roundTo2_le_ten (q : ℚ) (h : q ≤ 10) : roundTo2 q ≤ 10 := by
  unfold roundTo2
  have h1000 : q * 100 ≤ ((1000 : ℤ) : ℚ) := by push_cast; linarith
  have := roundHalfEven_le (q * 100) 1000 h1000
  have hc : (roundHalfEven (q * 100) : ℚ) ≤ 1000 := by exact_mod_cast this
  linarith

lemma roundTo2_ten : roundTo2 10 = 10 := by
  unfold roundTo2
  have : (10 : ℚ) * 100 = ((1000 : ℤ) : ℚ) := by norm_num
  rw [this, roundHalfEven_intCast]
  norm_num

lemma roundTo2_five : roundTo2 5 = 5 := by
  unfold roundTo2
  have : (5 : ℚ) * 100 = ((500 : ℤ) : ℚ) := by norm_num
  rw [this, roundHalfEven_intCast]
  norm_num

/-- Claim C4: the rating is 0 on an empty attendance history, equals
round-to-2-decimals of 10 * presentCount / totalRecords otherwise,
always lies in [0, 10], is 10 when every record is Present and 5 when
exactly half are. -/
theorem calculate_rating_spec (l : List AttendanceRecord) :
    (l = [] → calculate_rating l = 0) ∧
    (l ≠ [] → calculate_rating l =
        roundTo2 (10 * ((l.filter (fun a => a.status == "Present")).length : ℚ)
          / (l.length : ℚ))) ∧
    (0 ≤ calculate_rating l ∧ calculate_rating l ≤ 10) ∧
    ((∀ r ∈ l, r.status = "Present") → l ≠ [] → calculate_rating l = 10) ∧
    (2 * (l.filter (fun a => a.status == "Present")).length = l.length → l ≠ [] →
        calculate_rating l = 5) := by
  by_cases hnil : l = []
  · subst hnil
    refine ⟨fun _ => rfl, fun h => absurd rfl h, ?_, fun _ h => absurd rfl h,
      fun _ h => absurd rfl h⟩
    constructor <;> norm_num [calculate_rating]
  · have hlen : l.length ≠ 0 := fun h => hnil (List.length_eq_zero.mp h)
    have hlenQ : ((l.length : ℚ)) ≠ 0 := by exact_mod_cast hlen
    have hlenpos : (0 : ℚ) < (l.length : ℚ) := by
      have : 0 < l.length := Nat.pos_of_ne_zero hlen
      exact_mod_cast this
    have hval : calculate_rating l
        = roundTo2 ((((l.filter (fun a => a.status == "Present")).length : ℚ)
            / (l.length : ℚ)) * 10) := by
      unfold calculate_rating
      rw [if_neg hlen]
    refine ⟨fun h => absurd h hnil, ?_, ?_, ?_, ?_⟩
    · intro _
      rw [hval]
      congr 1
      ring
    · set p : ℚ := ((l.filter (fun a => a.status == "Present")).length : ℚ) with hp
      have hple : p ≤ (l.length : ℚ) := by
        rw [hp]
        exact_mod_cast List.length_filter_le _ l
      have hp0 : 0 ≤ p := by rw [hp]; positivity
      have harg0 : 0 ≤ (p / (l.length : ℚ)) * 10 := by positivity
      have harg10 : (p / (l.length : ℚ)) * 10 ≤ 10 := by
        have hdiv : p / (l.length : ℚ) ≤ 1 := (div_le_one hlenpos).mpr hple
        nlinarith
      rw [hval]
      exact ⟨roundTo2_nonneg _ harg0, roundTo2_le_ten _ harg10⟩
    · intro hall _
      have hfilter : l.filter (fun a => a.status == "Present") = l := by
        rw [List.filter_eq_self]
        intro a ha
        simpa using hall a ha
      rw [hval, hfilter]
      rw [div_self hlenQ, one_mul, roundTo2_ten]
    · intro hhalf _
      have hcast : 2 * ((l.filter (fun a => a.status == "Present")).length : ℚ)
          = (l.length : ℚ) := by exact_mod_cast hhalf
      rw [hval]
      have harg : (((l.filter (fun a => a.status == "Present")).length : ℚ)
          / (l.length : ℚ)) * 10 = 5 := by
        rw [← hcast]
        have hp0 : ((l.filter (fun a => a.status == "Present")).length : ℚ) ≠ 0 := by
          intro h0
          rw [h0, mul_zero] at hcast
          exact hlenQ hcast.symm
        field_simp
        ring
      rw [harg, roundTo2_five]

/-- Notification model (src/app.py lines 72-76): a null employee_id
means the message is a broadcast to all employees.  Timestamps are
embedded as natural numbers. -/
structure Notification where
  id : Nat
  message : String
  employee_id : Option Nat
  timestamp : Nat
deriving DecidableEq, Repr

/-- The order_by(Notification.timestamp.desc()) ordering: newer (larger)
timestamps first. -/
def newestFirst (a b : Notification) : Prop := b.timestamp ≤ a.timestamp

instance : DecidableRel newestFirst := fun a b => Nat.decLe b.timestamp a.timestamp

instance : IsTotal Notification newestFirst :=
  ⟨fun a b => le_total b.timestamp a.timestamp⟩

instance : IsTrans Notification newestFirst :=
  ⟨fun _ _ _ h1 h2 => le_trans h2 h1⟩

/-- The employee dashboard inbox query (src/app.py line 293):
Notification.query.filter((Notification.employee_id==emp.id)|(Notification.employee_id==None)).order_by(Notification.timestamp.desc()).all(). -/
def inbox (notifs : List Notification) (e : Nat) : List Notification :=
  List.insertionSort newestFirst
    (notifs.filter (fun n => n.employee_id == some e || n.employee_id == none))

/-- Claim C5: the inbox of employee e holds exactly the notifications
that are broadcasts (null target) or targeted at e, sorted newest
timestamp first; a notification targeted at a different employee never
appears. -/
theorem inbox_spec (notifs : List Notification) (e : Nat) :
    (∀ n, n ∈ inbox notifs e ↔
        (n ∈ notifs ∧ (n.employee_id = none ∨ n.employee_id = some e))) ∧
    List.Sorted newestFirst (inbox notifs e) ∧
    (∀ f n, f ≠ e → n.employee_id = some f → n ∉ inbox notifs e) := by
  have hmem : ∀ n, n ∈ inbox notifs e ↔
      (n ∈ notifs ∧ (n.employee_id = none ∨ n.employee_id = some e)) := by
    intro n
    unfold inbox
    rw [(List.perm_insertionSort newestFirst _).mem_iff, List.mem_filter]
    constructor
    · rintro ⟨hn, hp⟩
      refine ⟨hn, ?_⟩
      rcases Bool.or_eq_true_iff.mp hp with h | h
      · exact Or.inr (by simpa using h)
      · exact Or.inl (by simpa using h)
    · rintro ⟨hn, hp⟩
      refine ⟨hn, ?_⟩
      rcases hp with h | h <;> simp [h]
  refine ⟨hmem, List.sorted_insertionSort newestFirst _, ?_⟩
  intro f n hf hn hmem'
  rcases (hmem n).mp hmem' with ⟨_, h | h⟩
  · rw [hn] at h
    exact Option.noConfusion h
  · rw [hn] at h
    exact hf (Option.some.inj h)

/-- EmployeeRequest model (src/app.py lines 78-87); the status column
defaults to "Pending" on insert. -/
structure EmployeeRequest where
  id : Nat
  employee_id : Nat
  request_type : String
  message : String
  status : String
  timestamp : Nat
deriving DecidableEq, Repr

/-- The employee_create_request POST handler (src/app.py lines 328-344):
missing or empty type / message is rejected with a danger flash and no
row; otherwise a row is inserted with the default status Pending.
Missing form fields arrive as None and empty ones as ""; both are falsy
in the Python test, so the empty string stands for both here. -/
def employee_create_request_post (reqs : List EmployeeRequest) (nextId e ts : Nat)
    (request_type message : String) : List EmployeeRequest × Flash :=
  if request_type = "" ∨ message = "" then
    (reqs, { message := "All fields are required!", category := "danger" })
  else
    (reqs ++ [{ id := nextId, employee_id := e, request_type := request_type,
                message := message, status := "Pending", timestamp := ts }],
     { message := "Request submitted successfully!", category := "success" })

/-- The employee_request POST handler (src/app.py lines 401-408): the
same insertion with no emptiness validation at all. -/
def employee_request_post (reqs : List EmployeeRequest) (nextId e ts : Nat)
    (request_type message : String) : List EmployeeRequest × Flash :=
  (reqs ++ [{ id := nextId, employee_id := e, request_type := request_type,
              message := message, status := "Pending", timestamp := ts }],
   { message := "Request submitted successfully!", category := "success" })

/-- The Python str.lower() call on the ASCII decision strings. -/
def pyLower (s : String) : String := String.mk (s.data.map Char.toLower)

/-- Responses of the admin request-resolution route: either the 404 page
from get_or_404 or a flash plus redirect. -/
inductive AdminResponse where
  | notFound404
  | redirectFlash (message category : String)
deriving DecidableEq, Repr

/-- Mutation of the row object get_or_404 returns: the first row with
the given id gets its status column set. -/
def setStatusFirst : List EmployeeRequest → Nat → String → List EmployeeRequest
  | [], _, _ => []
  | r :: rs, i, st =>
      if r.id == i then { r with status := st } :: rs
      else r :: setStatusFirst rs i st

/-- update_employee_request_status (src/app.py lines 273-284): 404 when
the id is unknown, a danger flash when the decision is neither Approved
nor Declined, and otherwise the status column is overwritten with the
decision, whatever it was before. -/
def update_employee_request_status (reqs : List EmployeeRequest) (request_id : Nat)
    (new_status : String) : List EmployeeRequest × AdminResponse :=
  match reqs.find? (fun r => r.id == request_id) with
  | none => (reqs, AdminResponse.notFound404)
  | some _ =>
      if new_status = "Approved" ∨ new_status = "Declined" then
        (setStatusFirst reqs request_id new_status,
         AdminResponse.redirectFlash
           ("Request " ++ pyLower new_status ++ " successfully!") "success")
      else
        (reqs, AdminResponse.redirectFlash "Invalid status" "danger")

/-- Claim C6 counterexample: the employee_request route inserts a row
even when the message is empty — no validation error, one new Pending
row with an empty message. -/
theorem submit_request_empty_message_creates_row :
    employee_request_post [] 1 7 0 "Leave" ""
      = ([{ id := 1, employee_id := 7, request_type := "Leave",
            message := "", status := "Pending", timestamp := 0 }],
         { message := "Request submitted successfully!", category := "success" }) :=
  rfl

/-- Claim C6 (amended): the create-request route rejects an empty type
or message with a danger flash and creates no row, and otherwise inserts
one row with status Pending; the plain request route performs no
emptiness validation and always inserts one row with status Pending. -/
theorem submit_request_spec (reqs : List EmployeeRequest) (nextId e ts : Nat)
    (ty msg : String) :
    (ty = "" ∨ msg = "" →
        employee_create_request_post reqs nextId e ts ty msg
          = (reqs, { message := "All fields are required!", category := "danger" })) ∧
    (ty ≠ "" → msg ≠ "" →
        employee_create_request_post reqs nextId e ts ty msg
          = (reqs ++ [{ id := nextId, employee_id := e, request_type := ty,
                        message := msg, status := "Pending", timestamp := ts }],
             { message := "Request submitted successfully!", category := "success" })) ∧
    employee_request_post reqs nextId e ts ty msg
      = (reqs ++ [{ id := nextId, employee_id := e, request_type := ty,
                    message := msg, status := "Pending", timestamp := ts }],
         { message := "Request submitted successfully!", category := "success" }) := by
  refine ⟨?_, ?_, rfl⟩
  · intro h
    unfold employee_create_request_post
    rw [if_pos h]
  · intro h1 h2
    unfold employee_create_request_post
    rw [if_neg (by tauto)]

/-- Claim C7 counterexample: an already Approved request is flipped to
Declined by a second resolution — Approved is not terminal. -/
theorem request_status_reversal :
    update_employee_request_status
      [{ id := 1, employee_id := 7, request_type := "Leave",
         message := "please", status := "Approved", timestamp := 0 }] 1 "Declined"
      = ([{ id := 1, employee_id := 7, request_type := "Leave",
            message := "please", status := "Declined", timestamp := 0 }],
         AdminResponse.redirectFlash "Request declined successfully!" "success") := by
  rfl

lemma setStatusFirst_mem (reqs : List EmployeeRequest) (i : Nat) (st : String) :
    ∀ r ∈ setStatusFirst reqs i st, r ∈ reqs ∨ r.status = st := by
  induction reqs with
  | nil => intro r hr; simp [setStatusFirst] at hr
  | cons a rest ih =>
      intro r hr
      by_cases h : (a.id == i) = true
      · rw [setStatusFirst, if_pos h] at hr
        rcases List.mem_cons.mp hr with hr | hr
        · exact Or.inr (by rw [hr])
        · exact Or.inl (List.mem_cons_of_mem a hr)
      · rw [setStatusFirst, if_neg h] at hr
        rcases List.mem_cons.mp hr with hr | hr
        · exact Or.inl (hr ▸ List.mem_cons_self a rest)
        · rcases ih r hr with h1 | h1
          · exact Or.inl (List.mem_cons_of_mem a h1)
          · exact Or.inr h1

/-- Claim C7 (amended): resolution only ever writes the status values
Approved or Declined — every row of the table after the operation either
is an untouched original row or carries status Approved or Declined, so
no operation ever moves a request back to Pending; re-resolution may
however overwrite Approved with Declined or conversely, as the
counterexample shows. -/
theorem request_status_one_way (reqs : List EmployeeRequest) (i : Nat) (st : String)
    (r : EmployeeRequest) (hr : r ∈ (update_employee_request_status reqs i st).1) :
    r ∈ reqs ∨ r.status = "Approved" ∨ r.status = "Declined" := by
  unfold update_employee_request_status at hr
  cases hfind : List.find? (fun r => r.id == i) reqs with
  | none =>
      rw [hfind] at hr
      exact Or.inl hr
  | some r0 =>
      rw [hfind] at hr
      by_cases hst : st = "Approved" ∨ st = "Declined"
      · rw [if_pos hst] at hr
        rcases setStatusFirst_mem reqs i st r hr with h1 | h1
        · exact Or.inl h1
        · rcases hst with h | h
          · exact Or.inr (Or.inl (h ▸ h1))
          · exact Or.inr (Or.inr (h ▸ h1))
      · rw [if_neg hst] at hr
        exact Or.inl hr

/-- Witness for request_status_one_way on a concrete table. -/
theorem request_status_one_way_witness :
    ({ id := 1, employee_id := 7, request_type := "Leave",
       message := "please", status := "Approved", timestamp := 0 } : EmployeeRequest)
        ∈ [{ id := 1, employee_id := 7, request_type := "Leave",
             message := "please", status := "Pending", timestamp := 0 }] ∨
    ({ id := 1, employee_id := 7, request_type := "Leave",
       message := "please", status := "Approved", timestamp := 0 } : EmployeeRequest).status
        = "Approved" ∨
    ({ id := 1, employee_id := 7, request_type := "Leave",
       message := "please", status := "Approved", timestamp := 0 } : EmployeeRequest).status
        = "Declined" :=
  request_status_one_way
    [{ id := 1, employee_id := 7, request_type := "Leave",
       message := "please", status := "Pending", timestamp := 0 }] 1 "Approved"
    { id := 1, employee_id := 7, request_type := "Leave",
      message := "please", status := "Approved", timestamp := 0 } (by decide)

lemma find?_setStatusFirst (reqs : List EmployeeRequest) (i : Nat) (st : String)
    (r0 : EmployeeRequest) (h : List.find? (fun r => r.id == i) reqs = some r0) :
    List.find? (fun r => r.id == i) (setStatusFirst reqs i st)
      = some { r0 with status := st } := by
  induction reqs with
  | nil => simp at h
  | cons a rest ih =>
      by_cases ha : (a.id == i) = true
      · have ha' : (fun r => r.id == i) a = true := ha
        rw [List.find?_cons_of_pos (p := fun r => r.id == i) rest ha'] at h
        have := Option.some.inj h
        subst this
        rw [setStatusFirst, if_pos ha]
        have ha2 : (fun r => r.id == i) ({ a with status := st } : EmployeeRequest) = true := ha
        exact List.find?_cons_of_pos (p := fun r => r.id == i) rest ha2
      · have ha' : ¬((fun r => r.id == i) a = true) := ha
        rw [List.find?_cons_of_neg (p := fun r => r.id == i) rest ha'] at h
        rw [setStatusFirst, if_neg ha]
        rw [List.find?_cons_of_neg (p := fun r => r.id == i) (setStatusFirst rest i st) ha']
        exact ih h

/-- Claim C8: resolution 404s on an unknown request id, flashes Invalid
status for a decision other than Approved / Declined (leaving the table
unchanged), and otherwise overwrites the request's status with the
decision and flashes success; in particular a Pending request resolved
with Approved becomes Approved. -/
theorem resolve_request_spec (reqs : List EmployeeRequest) (i : Nat) (st : String) :
    (List.find? (fun r => r.id == i) reqs = none →
        update_employee_request_status reqs i st = (reqs, AdminResponse.notFound404)) ∧
    (∀ r0, List.find? (fun r => r.id == i) reqs = some r0 →
        (¬(st = "Approved" ∨ st = "Declined") →
            update_employee_request_status reqs i st
              = (reqs, AdminResponse.redirectFlash "Invalid status" "danger")) ∧
        ((st = "Approved" ∨ st = "Declined") →
            (update_employee_request_status reqs i st).2
                = AdminResponse.redirectFlash
                    ("Request " ++ pyLower st ++ " successfully!") "success" ∧
            List.find? (fun r => r.id == i) (update_employee_request_status reqs i st).1
                = some { r0 with status := st })) := by
  constructor
  · intro h
    unfold update_employee_request_status
    rw [h]
  · intro r0 h
    constructor
    · intro hst
      unfold update_employee_request_status
      rw [h, if_neg hst]
    · intro hst
      have hred : update_employee_request_status reqs i st
          = (setStatusFirst reqs i st,
             AdminResponse.redirectFlash
               ("Request " ++ pyLower st ++ " successfully!") "success") := by
        unfold update_employee_request_status
        rw [h, if_pos hst]
      rw [hred]
      exact ⟨rfl, find?_setStatusFirst reqs i st r0 h⟩

/-- Splitting a character list on a separator, the List-level meaning of
str.split as strptime uses it for "%Y-%m-%d". -/
def splitOnChar (c : Char) : List Char → List (List Char)
  | [] => [[]]
  | x :: xs =>
      match splitOnChar c xs with
      | [] => if x = c then [[], []] else [[x]]
      | y :: ys => if x = c then [] :: y :: ys else (x :: y) :: ys

/-- A nonempty all-digit character list read as a decimal number. -/
def digitsToNat (cs : List Char) : Option Nat :=
  if cs = [] then none
  else if cs.all Char.isDigit then
    some (cs.foldl (fun a c => a * 10 + (c.toNat - 48)) 0)
  else none

def isLeapYear (y : Nat) : Bool :=
  (y % 4 == 0 && y % 100 != 0) || y % 400 == 0

def daysInMonth (y m : Nat) : Nat :=
  if m = 2 then (if isLeapYear y then 29 else 28)
  else if m = 4 ∨ m = 6 ∨ m = 9 ∨ m = 11 then 30
  else 31

/-- datetime.strptime(s, "%Y-%m-%d").date(): numeric year, month and day
separated by dashes, with the month and day in calendar range; none
models the ValueError the call raises on anything else. -/
def parseDateYMD (s : String) : Option (Nat × Nat × Nat) :=
  match splitOnChar (Char.ofNat 45) s.data with
  | [y, m, d] =>
      match digitsToNat y, digitsToNat m, digitsToNat d with
      | some yn, some mn, some dn =>
          if 1 ≤ mn ∧ mn ≤ 12 ∧ 1 ≤ dn ∧ dn ≤ daysInMonth yn mn then
            some (yn, mn, dn)
          else none
      | _, _, _ => none
  | _ => none

/-- The Python int(s) conversion: surrounding spaces stripped, an
optional sign, then a nonempty digit run; none models the ValueError it
raises otherwise (digit-group underscores are not modelled). -/
def pyInt (s : String) : Option Int :=
  match ((s.data.dropWhile (fun c => c = ' ')).reverse.dropWhile
      (fun c => c = ' ')).reverse with
  | [] => none
  | c :: rest =>
      if c = Char.ofNat 45 then (digitsToNat rest).map (fun n => -(n : Int))
      else if c = Char.ofNat 43 then (digitsToNat rest).map (fun n => (n : Int))
      else (digitsToNat (c :: rest)).map (fun n => (n : Int))

/-- Employee model (src/app.py lines 26-46), the profile fields the edit
route touches. -/
structure Employee where
  id : Nat
  name : String
  emp_id : String
  gender : String
  address : String
  mobile_number : String
  email : String
  date_of_birth : Option (Nat × Nat × Nat)
deriving DecidableEq, Repr

/-- Outcome of a POST to the admin edit-employee route. -/
inductive EditOutcome where
  | flashRedirect (message category : String) (emp : Employee)
  | unhandledValueError
deriving DecidableEq, Repr

/-- The edit_employee POST handler (src/app.py lines 209-236): all
profile fields are overwritten from the form and committed with a
success flash; the strptime call at line 216 is not wrapped in any
try/except (unlike the same parse in add_employee, lines 157-162), so a
malformed non-empty date_of_birth raises ValueError out of the handler
instead of flashing and redirecting. -/
def edit_employee_post (emp : Employee) (name emp_id gender address mobile email
    dobStr : String) : EditOutcome :=
  if dobStr = "" then
    EditOutcome.flashRedirect "Employee updated successfully!" "success"
      { emp with name := name, emp_id := emp_id, gender := gender,
                 address := address, mobile_number := mobile, email := email,
                 date_of_birth := none }
  else
    match parseDateYMD dobStr with
    | none => EditOutcome.unhandledValueError
    | some dob =>
        EditOutcome.flashRedirect "Employee updated successfully!" "success"
          { emp with name := name, emp_id := emp_id, gender := gender,
                     address := address, mobile_number := mobile, email := email,
                     date_of_birth := some dob }

/-- Outcome of a POST to the admin notifications route. -/
inductive NotifyOutcome where
  | ok (notifs : List Notification) (message category : String)
  | unhandledValueError
deriving DecidableEq, Repr

/-- The truthiness test Python applies to form.get results: None and the
empty string are falsy. -/
def formTruthy (o : Option String) : Bool := o.getD "" ≠ ""

/-- The admin_notifications POST handler (src/app.py lines 418-442): an
empty message is rejected with a flash; recipient "all" inserts a
broadcast row; recipient "selected" with a truthy employee_id calls
int(selected_emp_id) at line 434 with no handler, so a non-numeric value
raises ValueError out of the handler; anything else flashes a danger
message.  A negative int would not match any employee id; the Nat
embedding of the stored id uses Int.toNat. -/
def admin_notifications_post (notifs : List Notification) (nextId ts : Nat)
    (message : String) (recipient_type : Option String)
    (selected_emp_id : Option String) : NotifyOutcome :=
  if message = "" then
    NotifyOutcome.ok notifs "Message cannot be empty!" "danger"
  else if recipient_type = some "all" then
    NotifyOutcome.ok
      (notifs ++ [{ id := nextId, message := message, employee_id := none,
                    timestamp := ts }])
      "Notification sent to all employees!" "success"
  else if recipient_type = some "selected" ∧ formTruthy selected_emp_id then
    match pyInt (selected_emp_id.getD "") with
    | none => NotifyOutcome.unhandledValueError
    | some n =>
        NotifyOutcome.ok
          (notifs ++ [{ id := nextId, message := message,
                        employee_id := some n.toNat, timestamp := ts }])
          "Notification sent to selected employee!" "success"
  else
    NotifyOutcome.ok notifs "Please select a valid employee!" "danger"

/-- Claim C9: not every error is recovered at the request boundary — a
malformed date of birth posted to the edit-employee form and a
non-numeric selected employee id posted to the notifications form both
escape their handlers as unhandled ValueErrors instead of producing a
flash message plus redirect. -/
theorem unhandled_errors_exist :
    edit_employee_post
        { id := 1, name := "A", emp_id := "1001", gender := "F", address := "addr",
          mobile_number := "999", email := "a@b.c", date_of_birth := none }
        "A" "1001" "F" "addr" "999" "a@b.c" "not-a-date"
      = EditOutcome.unhandledValueError ∧
    admin_notifications_post [] 1 0 "hello" (some "selected") (some "abc")
      = NotifyOutcome.unhandledValueError := by
  constructor <;> rfl

end AttendanceApp
